import Mathlib

/-!
Shallow embedding of the `lwiot::detail_fsm` finite state machine engine
(`FsmBase`, `State`, `Transition` from the repository header) together with
theorems about its builder operations, validation, event queue and step
execution.

Machine integers (`FsmStateId` = `uint32_t`, the packed 64-bit transition
table index) are modelled as `Nat` with explicit `% 2 ^ 32` where the C++
code truncates.  The policy-supplied containers (ordered map, unordered
set, double-ended queue) are not part of the repository sources; they are
modelled from the spec's collaborator contracts as association lists and
element lists.  Crashing executions (a `Map::at` miss, dereferencing an
invalid `ReferenceWrapper` or a null `SharedPointer`, unbounded parent
recursion) are modelled by `Option`: `none` is the crash.
-/

set_option linter.unusedVariables false

/-- FSM status, mirroring `enum class FsmStatus`. -/
inductive FsmStatus where
  | StateUnchanged
  | StateChanged
  | Fault
  | Error
  | Stopped
  | Running
deriving DecidableEq, Repr

/-- A transition of the state machine (class `Transition`): an alphabet
symbol `m_event`, a continuation state `m_next` and a guard handler, of
which only validity is observable to the engine (`hasGuard`). -/
structure Transition where
  m_event : Nat
  m_next : Nat
  m_guard : Bool
deriving DecidableEq, Repr

/-- A state of the machine (class `State`): an id, a parent id (`0` means
no parent, following `hasParent`'s integral-to-bool cast) and an optional
handler.  The handler is modelled for the `R = bool` instantiation: a
missing handler is `none` (an invalid `Function`). -/
structure FsmState where
  m_id : Nat
  m_parent : Nat
  m_action : Option (Nat → Bool)

/-- Modelled from the spec: the policy's ordered mapping (`Map<K, V>`),
whose implementation is not under the repository sources.  The spec asks
for `insert`/`find`/`contains`/`emplace` with insert-unique semantics;
an association list in insertion order realises that contract. -/
def mapContains {α : Type} (m : List (Nat × α)) (k : Nat) : Bool :=
  m.any (fun p => p.1 == k)

/-- Modelled from the spec: `Map::find`, as an `Option` on the first
matching key. -/
def mapFind {α : Type} (m : List (Nat × α)) (k : Nat) : Option α :=
  (m.find? (fun p => p.1 == k)).map Prod.snd

/-- Modelled from the spec: `Map::emplace`; inserts only if the key is
absent and reports whether the insertion happened. -/
def mapEmplace {α : Type} (m : List (Nat × α)) (k : Nat) (v : α) :
    List (Nat × α) × Bool :=
  if mapContains m k then (m, false) else (m ++ [(k, v)], true)

/-- Modelled from the spec: the policy's unordered set (`Set<T>`), with
set-insert semantics reporting whether the element was new. -/
def setInsert (s : List Nat) (x : Nat) : List Nat × Bool :=
  if s.contains x then (s, false) else (s ++ [x], true)

/-- Modelled from the spec: `Set::contains`. -/
def setContains (s : List Nat) (x : Nat) : Bool :=
  s.contains x

/-- `2 ^ 32`, the number of values of `FsmStateId` (`uint32_t`). -/
def U32 : Nat := 2 ^ 32

/-- The packed transition-table index (union `SttIndex` with a `uint64`
overlaying `{ stateId; eventId }`): the state id occupies the low half
and the event id the high half. -/
def sttKey (state event : Nat) : Nat :=
  state % U32 + (event % U32) * U32

/-- The FSM engine (`FsmBase`): transition table, state map, stop-state
list, start/error references (an invalid `ReferenceWrapper` is `none`),
current state, status, in-transition flag, alphabet, event queue
(front = head; records are `(event, argument)` pairs) and silence flag. -/
structure FsmBase where
  m_stt : List (Nat × Transition)
  m_states : List (Nat × FsmState)
  m_stop_states : List Nat
  m_start_state : Option Nat
  m_current : Nat
  m_error_state : Option Nat
  m_status : FsmStatus
  m_in_transition : Bool
  m_alphabet : List Nat
  m_events : List (Nat × Nat)
  m_silent : Bool

/-- A freshly constructed engine (the `FsmBase(time_t)` constructor):
empty containers, zero current state, status `Stopped`. -/
def FsmBase.init : FsmBase where
  m_stt := []
  m_states := []
  m_stop_states := []
  m_start_state := none
  m_current := 0
  m_error_state := none
  m_status := FsmStatus.Stopped
  m_in_transition := false
  m_alphabet := []
  m_events := []
  m_silent := false

/-- `FsmBase::addState`: rejects a duplicate id, otherwise emplaces the
state keyed by its id; returns the id and a success flag. -/
def FsmBase.addState (eng : FsmBase) (st : FsmState) : FsmBase × (Nat × Bool) :=
  let id := st.m_id
  if mapContains eng.m_states id then
    (eng, (id, false))
  else
    let r := mapEmplace eng.m_states id st
    ({ eng with m_states := r.1 }, (id, r.2))

/-- `FsmBase::addStates`: walks the sequence, returning `false` at the
first id that is already registered; states emplaced before that point
stay in the map. -/
def FsmBase.addStates : FsmBase → List FsmState → FsmBase × Bool
  | eng, [] => (eng, true)
  | eng, st :: rest =>
    let id := st.m_id
    if mapContains eng.m_states id then
      (eng, false)
    else
      let r := mapEmplace eng.m_states id st
      let eng1 : FsmBase := { eng with m_states := r.1 }
      if !r.2 then (eng1, false) else eng1.addStates rest

/-- `FsmBase::setStartState`: a silent no-op when the id is unknown. -/
def FsmBase.setStartState (eng : FsmBase) (id : Nat) : FsmBase :=
  if !mapContains eng.m_states id then eng
  else { eng with m_start_state := some id }

/-- `FsmBase::setErrorState`: fails when the id is unknown. -/
def FsmBase.setErrorState (eng : FsmBase) (id : Nat) : FsmBase × Bool :=
  if !mapContains eng.m_states id then (eng, false)
  else ({ eng with m_error_state := some id }, true)

/-- `FsmBase::addStopState`: fails when the id is unknown, otherwise
pushes a reference onto the stop-state list. -/
def FsmBase.addStopState (eng : FsmBase) (sid : Nat) : FsmBase × Bool :=
  if !mapContains eng.m_states sid then (eng, false)
  else ({ eng with m_stop_states := eng.m_stop_states ++ [sid] }, true)

/-- `FsmBase::addStopStates`: a first loop fails on the first unknown id
(leaving the engine untouched), a second loop then pushes every
reference — all-or-nothing by construction. -/
def FsmBase.addStopStates (eng : FsmBase) (sids : List Nat) : FsmBase × Bool :=
  if sids.all (fun s => mapContains eng.m_states s) then
    ({ eng with m_stop_states := eng.m_stop_states ++ sids }, true)
  else
    (eng, false)

/-- `FsmBase::addAlphabetSymbol`: set-insert of the symbol. -/
def FsmBase.addAlphabetSymbol (eng : FsmBase) (e : Nat) : FsmBase × Bool :=
  let r := setInsert eng.m_alphabet e
  ({ eng with m_alphabet := r.1 }, r.2)

/-- `FsmBase::updateAlphabet`: inserts the transition's event unless it
is already present. -/
def FsmBase.updateAlphabet (eng : FsmBase) (t : Transition) : FsmBase :=
  if setContains eng.m_alphabet t.m_event then eng
  else { eng with m_alphabet := (setInsert eng.m_alphabet t.m_event).1 }

/-- `FsmBase::addTransition`: packs the `(state, event)` index, extends
the alphabet, then emplaces into the transition table; the result is the
emplacement flag.  No membership check on `state` is performed. -/
def FsmBase.addTransition (eng : FsmBase) (state : Nat) (t : Transition) :
    FsmBase × Bool :=
  let key := sttKey state t.m_event
  let eng1 := eng.updateAlphabet t
  let r := mapEmplace eng1.m_stt key t
  ({ eng1 with m_stt := r.1 }, r.2)

/-- `FsmBase::halt`: returns untouched unless the engine is running, in
which case the status becomes `Stopped`. -/
def FsmBase.halt (eng : FsmBase) : FsmBase :=
  if eng.m_status == FsmStatus.Running then
    { eng with m_status := FsmStatus.Stopped }
  else
    eng

/-- `FsmBase::lookup`, fuelled: find the direct `(state, event)` row; on
a miss recurse on the parent (`Map::at` on a missing parent is a crash,
`none`).  `some none` is a completed lookup that found nothing;
exhausted fuel (a cyclic parent chain, which the engine does not detect)
is also a crash. -/
def lookupAux (stt : List (Nat × Transition)) (states : List (Nat × FsmState)) :
    Nat → FsmState → Nat → Option (Option Transition)
  | 0, _, _ => none
  | fuel + 1, st, event =>
    match mapFind stt (sttKey st.m_id event) with
    | some t => some (some t)
    | none =>
      if st.m_parent ≠ 0 then
        match mapFind states st.m_parent with
        | some p => lookupAux stt states fuel p event
        | none => none
      else
        some none

/-- `FsmBase::lookup` with fuel covering every acyclic parent chain. -/
def FsmBase.lookup (eng : FsmBase) (st : FsmState) (event : Nat) :
    Option (Option Transition) :=
  lookupAux eng.m_stt eng.m_states (eng.m_states.length + 1) st event

/-- The inner loop of `FsmBase::deterministic`: scan the alphabet for one
state, accumulating the `accepts` set.  A failed lookup on a state with a
handler is a missing transition; a failed `accepts.insert` is reported as
an ε-transition. -/
def detSymbols (eng : FsmBase) (st : FsmState) :
    List Nat → List Nat → Option Bool
  | [], _ => some true
  | sym :: rest, accepts =>
    match eng.lookup st sym with
    | none => none
    | some r =>
      if r.isNone && st.m_action.isSome then
        some false
      else
        let ins := setInsert accepts sym
        if !ins.2 then some false
        else detSymbols eng st rest ins.1

/-- The outer loop of `FsmBase::deterministic`: every registered state is
scanned against the whole alphabet with a fresh `accepts` set. -/
def detStates (eng : FsmBase) : List FsmState → Option Bool
  | [] => some true
  | st :: rest =>
    match detSymbols eng st eng.m_alphabet [] with
    | none => none
    | some true => detStates eng rest
    | some false => some false

/-- `FsmBase::deterministic`. -/
def FsmBase.deterministic (eng : FsmBase) : Option Bool :=
  detStates eng (eng.m_states.map Prod.snd)

/-- `FsmBase::valid`: status in `{Running, Stopped}`, non-empty state
map, start/error references set, at least one stop state, and the
determinism check. -/
def FsmBase.valid (eng : FsmBase) : Option Bool :=
  if !(eng.m_status == FsmStatus.Running || eng.m_status == FsmStatus.Stopped) then
    some false
  else if eng.m_states.length == 0 then
    some false
  else if eng.m_start_state.isNone || eng.m_stop_states.length == 0 then
    some false
  else if eng.m_error_state.isNone then
    some false
  else
    eng.deterministic

/-- `FsmBase::start`: with `check` set, an invalid automaton makes the
call a silent no-op; otherwise the current state becomes the start
state's id and the status `Running`.  Dereferencing an unset start
reference is a crash. -/
def FsmBase.start (eng : FsmBase) (check : Bool) : Option FsmBase :=
  if check then
    match eng.valid with
    | none => none
    | some false => some eng
    | some true =>
      match eng.m_start_state with
      | none => none
      | some sid => some { eng with m_current := sid, m_status := FsmStatus.Running }
  else
    match eng.m_start_state with
    | none => none
    | some sid => some { eng with m_current := sid, m_status := FsmStatus.Running }

/-- The parent-climbing loop inside `FsmBase::accept`, fuelled: a direct
table hit accepts; otherwise climb to the parent (`Map::at` on a missing
parent is a crash). -/
def acceptAux (stt : List (Nat × Transition)) (states : List (Nat × FsmState)) :
    Nat → FsmState → Nat → Option Bool
  | 0, _, _ => none
  | fuel + 1, st, event =>
    if (mapFind stt (sttKey st.m_id event)).isSome then some true
    else if st.m_parent == 0 then some false
    else
      match mapFind states st.m_parent with
      | some p => acceptAux stt states fuel p event
      | none => none

/-- `FsmBase::accept`: `false` when not running; otherwise the current
state (`Map::at(m_current)`) climbs its parent chain looking for a row
on the event. -/
def FsmBase.accept (eng : FsmBase) (event : Nat) : Option Bool :=
  if eng.m_status != FsmStatus.Running then some false
  else
    match mapFind eng.m_states eng.m_current with
    | none => none
    | some st => acceptAux eng.m_stt eng.m_states (eng.m_states.length + 1) st event

/-- `FsmBase::addEvent`: push the `(event, argument)` record at the front
(`transition`) or at the back (`raise`) of the event queue. -/
def FsmBase.addEvent (eng : FsmBase) (event args : Nat) (front : Bool) : FsmBase :=
  if front then { eng with m_events := (event, args) :: eng.m_events }
  else { eng with m_events := eng.m_events ++ [(event, args)] }

/-- `FsmBase::raise`: rejected when the event is not accepted; otherwise
the record is enqueued at the back. -/
def FsmBase.raise (eng : FsmBase) (event args : Nat) : Option (FsmBase × Bool) :=
  match eng.accept event with
  | none => none
  | some false => some (eng, false)
  | some true => some (eng.addEvent event args false, true)

/-- The public `FsmBase::transition(event, args...)`: rejected when the
event is not accepted or a transition is already in flight; otherwise the
record is enqueued at the front and the in-flight flag set. -/
def FsmBase.transitionEnqueue (eng : FsmBase) (event args : Nat) :
    Option (FsmBase × Bool) :=
  match eng.accept event with
  | none => none
  | some acc =>
    if !acc || eng.m_in_transition then some (eng, false)
    else some ({ eng.addEvent event args true with m_in_transition := true }, true)

/-- `FsmBase::isStopState`: membership of the id in the stop-state list. -/
def FsmBase.isStopState (eng : FsmBase) (state : Nat) : Bool :=
  eng.m_stop_states.contains state

/-- The observable outcome of one `step`: the returned status, the engine
afterwards, the handler invocations `(state id, argument)` in order, and
whether `m_stop_event` was signalled. -/
structure StepOutcome where
  status : FsmStatus
  eng : FsmBase
  invoked : List (Nat × Nat)
  signalled : Bool

/-- `FsmBase::toErrorState`: current becomes the error state's id, the
status `Error`, and the error state's handler is invoked with the saved
arguments.  An unset error reference, a dangling one, or invoking an
invalid handler `Function` is a crash.  Returns the updated engine and
the invocation record. -/
def FsmBase.toErrorState (eng : FsmBase) (args : Nat) :
    Option (FsmBase × (Nat × Nat)) :=
  match eng.m_error_state with
  | none => none
  | some eid =>
    match mapFind eng.m_states eid with
    | none => none
    | some est =>
      match est.m_action with
      | none => none
      | some _h =>
        some ({ eng with m_current := eid, m_status := FsmStatus.Error }, (eid, args))

/-- The private `FsmBase::transition(event, args, IndexSequence)`: when
not running, the latched status is returned unchanged.  Otherwise the
current state is fetched (`Map::at`), the transition resolved by
`lookup` — an absent row means dereferencing an empty reference, a
crash — the current state advanced to `next`, and the destination
fetched by `operator[]`, whose miss default-constructs a null pointer
whose dereference is a crash.  A missing destination handler counts as
failure; failure routes through `toErrorState`, signals the stop event
and yields `Fault`; success signals the stop event on a stop state and
yields `StateChanged`. -/
def FsmBase.transitionExec (eng : FsmBase) (event args : Nat) : Option StepOutcome :=
  if eng.m_status != FsmStatus.Running then
    some ⟨eng.m_status, eng, [], false⟩
  else
    match mapFind eng.m_states eng.m_current with
    | none => none
    | some cur =>
      match lookupAux eng.m_stt eng.m_states (eng.m_states.length + 1) cur event with
      | none => none
      | some none => none
      | some (some t) =>
        let next := t.m_next
        let eng1 : FsmBase := { eng with m_current := next }
        match mapFind eng1.m_states next with
        | none => none
        | some dst =>
          let success := match dst.m_action with
            | some h => h args
            | none => false
          if success then
            some ⟨FsmStatus.StateChanged, eng1, [(next, args)], eng1.isStopState next⟩
          else
            match eng1.toErrorState args with
            | none => none
            | some (eng2, inv) =>
              some ⟨FsmStatus.Fault, eng2,
                    (if dst.m_action.isSome then [(next, args)] else []) ++ [inv],
                    true⟩

/-- The public `FsmBase::transition()` — the `step` primitive: an empty
queue yields `StateUnchanged` at once (without touching the in-flight
flag); otherwise the front record is popped, executed, and the in-flight
flag cleared. -/
def FsmBase.step (eng : FsmBase) : Option StepOutcome :=
  match eng.m_events with
  | [] => some ⟨FsmStatus.StateUnchanged, eng, [], false⟩
  | (event, args) :: rest =>
    let eng0 : FsmBase := { eng with m_events := rest }
    match eng0.transitionExec event args with
    | none => none
    | some out => some { out with eng := { out.eng with m_in_transition := false } }

/-- `FsmBase::copy`: assigns, in order, the transition table, event
queue, state map, stop states, start reference, current, error
reference, status, in-transition flag, logger (not modelled) and the
silence flag of `src` onto `dst`.  `m_alphabet` is not among the
assigned fields. -/
def FsmBase.copy (dst src : FsmBase) : FsmBase :=
  { dst with
    m_stt := src.m_stt
    m_events := src.m_events
    m_states := src.m_states
    m_stop_states := src.m_stop_states
    m_start_state := src.m_start_state
    m_current := src.m_current
    m_error_state := src.m_error_state
    m_status := src.m_status
    m_in_transition := src.m_in_transition
    m_silent := src.m_silent }

/-- The friend `swap(FsmBase&, FsmBase&)` (also the move path): swaps the
transition table, event queue, state map, stop states, start reference,
current, error reference, status, in-transition flag, logger (not
modelled) and silence flag.  `m_alphabet` is not among the swapped
fields. -/
def fsmSwap (a b : FsmBase) : FsmBase × FsmBase :=
  ({ a with
      m_stt := b.m_stt
      m_events := b.m_events
      m_states := b.m_states
      m_stop_states := b.m_stop_states
      m_start_state := b.m_start_state
      m_current := b.m_current
      m_error_state := b.m_error_state
      m_status := b.m_status
      m_in_transition := b.m_in_transition
      m_silent := b.m_silent },
   { b with
      m_stt := a.m_stt
      m_events := a.m_events
      m_states := a.m_states
      m_stop_states := a.m_stop_states
      m_start_state := a.m_start_state
      m_current := a.m_current
      m_error_state := a.m_error_state
      m_status := a.m_status
      m_in_transition := a.m_in_transition
      m_silent := a.m_silent })

/-- Bits per byte, as the `BITS_PER_BYTE` constant. -/
def BITS_PER_BYTE : Nat := 8

/-- `State::generateFsmStateId`: four bytes are drawn from the random
source (`lwiot::random()` reduced mod `2 ^ 8`) and or-ed into the four
byte positions of a 32-bit id.  `random num` is the value of the
`num`-th draw. -/
def generateFsmStateId (random : Nat → Nat) : Nat :=
  (List.range 4).foldl
    (fun result num =>
      result ||| ((random num % 2 ^ BITS_PER_BYTE) <<< (num * BITS_PER_BYTE)))
    0

/-- A handler that always succeeds. -/
def actT : Nat → Bool := fun _ => true

/-- A handler that always fails. -/
def actF : Nat → Bool := fun _ => false

/-- State `1`, no parent, succeeding handler. -/
def stG : FsmState := ⟨1, 0, some actT⟩

/-- State `2`, no parent, failing handler. -/
def stB : FsmState := ⟨2, 0, some actF⟩

/-- State `3`, no parent, succeeding handler (used as error state). -/
def stE : FsmState := ⟨3, 0, some actT⟩

/-- State `2`, no parent, succeeding handler. -/
def st2 : FsmState := ⟨2, 0, some actT⟩

/-- Scenario S4 state `A = 1` (no parent, succeeding handler). -/
def s4A : FsmState := ⟨1, 0, some actT⟩

/-- Scenario S4 state `B = 2` with parent `A = 1`. -/
def s4B : FsmState := ⟨2, 1, some actT⟩

/-- The S4 automaton: states `{A = 1, B = 2 (parent = A)}`, transitions
`(A, x) → B` and `(B, x) → A` with `x = 1`, start `A`, error `A`,
stop `B`. -/
def s4Engine : FsmBase :=
  let e1 := (FsmBase.init.addState s4A).1
  let e2 := (e1.addState s4B).1
  let e3 := (e2.addTransition 1 ⟨1, 2, false⟩).1
  let e4 := (e3.addTransition 2 ⟨1, 1, false⟩).1
  let e5 := e4.setStartState 1
  let e6 := (e5.setErrorState 1).1
  (e6.addStopState 2).1

/-- A handler-failure automaton: states `1` (ok), `2` (failing), `3`
(error, ok), transition `(1, 1) → 2`, start `1`, error `3`. -/
def faultBase : FsmBase :=
  let e1 := (FsmBase.init.addState stG).1
  let e2 := (e1.addState stB).1
  let e3 := (e2.addState stE).1
  let e4 := (e3.addTransition 1 ⟨1, 2, false⟩).1
  let e5 := e4.setStartState 1
  (e5.setErrorState 3).1

/-- `faultBase` after `start(false)`: current `1`, status `Running`. -/
def faultStarted : FsmBase :=
  { faultBase with m_current := 1, m_status := FsmStatus.Running }

/-- `faultStarted` after `raise(1, 0)`: the record sits in the queue. -/
def faultQueued : FsmBase := faultStarted.addEvent 1 0 false

/-- The outcome of `step` on `faultQueued`: the failing handler of state
`2` routes to error state `3`; both handlers are invoked; the stop event
is signalled. -/
def faultOut : StepOutcome :=
  ⟨FsmStatus.Fault,
   { faultQueued with
      m_events := [], m_current := 3, m_status := FsmStatus.Error,
      m_in_transition := false },
   [(2, 0), (3, 0)], true⟩

/-- A two-state automaton: states `1` and `2` (both succeeding),
transition `(1, 1) → 2`, start `1`. -/
def c6Base : FsmBase :=
  let e1 := (FsmBase.init.addState stG).1
  let e2 := (e1.addState st2).1
  let e3 := (e2.addTransition 1 ⟨1, 2, false⟩).1
  e3.setStartState 1

/-- `c6Base` after `start(false)`. -/
def c6Run : FsmBase :=
  { c6Base with m_current := 1, m_status := FsmStatus.Running }

/-- `c6Run` after `raise(1, 0)`. -/
def c6Queued : FsmBase := c6Run.addEvent 1 0 false

/-- The source engine for the copy/swap experiment: one state (id `3`)
and alphabet `{7}`. -/
def c4Src : FsmBase :=
  ((FsmBase.init.addState ⟨3, 0, none⟩).1.addAlphabetSymbol 7).1

/-- An automaton whose only transition `(1, 1) → 99` leads to the
unregistered state `99`: state `1` (succeeding handler), start `1`. -/
def derefCrashBase : FsmBase :=
  let e1 := (FsmBase.init.addState stG).1
  let e2 := (e1.addTransition 1 ⟨1, 99, false⟩).1
  e2.setStartState 1

/-- `derefCrashBase` after `start(false)`. -/
def derefCrashRun : FsmBase :=
  { derefCrashBase with m_current := 1, m_status := FsmStatus.Running }

/-- `derefCrashRun` after `raise(1, 0)`. -/
def derefCrashEng : FsmBase := derefCrashRun.addEvent 1 0 false

theorem mapContains_append {α : Type} (m l : List (Nat × α)) (k : Nat)
    (h : mapContains m k = true) : mapContains (m ++ l) k = true := by
  unfold mapContains at h ⊢
  rw [List.any_append, h, Bool.true_or]

theorem mapEmplace_snd {α : Type} (m : List (Nat × α)) (k : Nat) (v : α) :
    (mapEmplace m k v).2 = !(mapContains m k) := by
  unfold mapEmplace
  split <;> simp_all

theorem updateAlphabet_stt (eng : FsmBase) (t : Transition) :
    (eng.updateAlphabet t).m_stt = eng.m_stt := by
  unfold FsmBase.updateAlphabet
  split <;> rfl

theorem updateAlphabet_contains (eng : FsmBase) (t : Transition) :
    setContains (eng.updateAlphabet t).m_alphabet t.m_event = true := by
  unfold FsmBase.updateAlphabet
  split
  · assumption
  · next h =>
    have h2 : eng.m_alphabet.contains t.m_event = false := by
      revert h
      unfold setContains
      cases eng.m_alphabet.contains t.m_event <;> simp
    unfold setInsert setContains
    rw [h2]
    simp

theorem addStates_any_collision_false :
    ∀ (sts : List FsmState) (eng : FsmBase),
      sts.any (fun st => mapContains eng.m_states st.m_id) = true →
      (eng.addStates sts).2 = false := by
  intro sts
  induction sts with
  | nil =>
    intro eng h
    simp at h
  | cons st rest ih =>
    intro eng h
    rw [List.any_cons] at h
    by_cases hc : mapContains eng.m_states st.m_id = true
    · simp [FsmBase.addStates, hc]
    · have hb : mapContains eng.m_states st.m_id = false :=
        Bool.eq_false_iff.mpr hc
      rw [hb, Bool.false_or] at h
      have h2 : rest.any
          (fun s => mapContains (eng.m_states ++ [(st.m_id, st)]) s.m_id) = true := by
        rw [List.any_eq_true] at h ⊢
        obtain ⟨x, hx, hpx⟩ := h
        exact ⟨x, hx, mapContains_append _ _ _ hpx⟩
      simp only [FsmBase.addStates, hb, mapEmplace, Bool.false_eq_true, if_false,
                 Bool.not_true]
      exact ih _ h2

/-- Claim C1, evaluated at the failing input (scenario S4): in `s4Engine`
the symbol `1` is accepted by state `B = 2` both through its direct row
and through its parent `A = 1`'s row, yet `deterministic()` returns
`true` and `start(check = true)` leaves the engine `Running`.  The
ε-branch of the determinism scan cannot fire: `accepts` is a fresh
per-state set and the scanned alphabet is itself a set, so the insert
that is supposed to witness two lookup paths never fails. -/
theorem s4_epsilon_not_detected :
    (mapFind s4Engine.m_stt (sttKey s4B.m_id 1)).isSome = true ∧
    s4B.m_parent = s4A.m_id ∧
    (mapFind s4Engine.m_stt (sttKey s4A.m_id 1)).isSome = true ∧
    s4Engine.deterministic = some true ∧
    (s4Engine.start true).map FsmBase.m_status = some FsmStatus.Running :=
  ⟨rfl, rfl, rfl, rfl, rfl⟩

/-- Claim C2, counterexample: with state `2` already registered,
`addStates [state 1, state 2]` returns `false` but leaves state `1`
registered — the state map is not what it was before the call. -/
theorem addStates_partial_registration :
    ((FsmBase.init.addState ⟨2, 0, none⟩).1.addStates
        [⟨1, 0, none⟩, ⟨2, 0, none⟩]).2 = false ∧
    mapContains ((FsmBase.init.addState ⟨2, 0, none⟩).1.addStates
        [⟨1, 0, none⟩, ⟨2, 0, none⟩]).1.m_states 1 = true ∧
    mapContains (FsmBase.init.addState ⟨2, 0, none⟩).1.m_states 1 = false :=
  ⟨rfl, rfl, rfl⟩

/-- Claim C2, amended: `addStopStates` is all-or-nothing — when any id is
unregistered the call fails and the engine is exactly what it was —
while `addStates` only guarantees the failure result when some id
collides with an already-registered state; states earlier in the
sequence stay registered, as the closing concrete conjunct shows. -/
theorem bulk_registration_contract :
    (∀ (eng : FsmBase) (sids : List Nat),
        sids.all (fun s => mapContains eng.m_states s) = false →
        eng.addStopStates sids = (eng, false)) ∧
    (∀ (eng : FsmBase) (sts : List FsmState),
        sts.any (fun st => mapContains eng.m_states st.m_id) = true →
        (eng.addStates sts).2 = false) ∧
    (((FsmBase.init.addState ⟨4, 0, none⟩).1.addStates
        [⟨3, 0, none⟩, ⟨4, 0, none⟩]).2 = false ∧
      mapContains ((FsmBase.init.addState ⟨4, 0, none⟩).1.addStates
        [⟨3, 0, none⟩, ⟨4, 0, none⟩]).1.m_states 3 = true) := by
  refine ⟨?_, ?_, rfl, rfl⟩
  · intro eng sids h
    simp [FsmBase.addStopStates, h]
  · intro eng sts h
    exact addStates_any_collision_false sts eng h

/-- Claim C2, witness: the all-or-nothing branch of the theorem applied
to a fresh engine and the unregistered stop state `5`. -/
theorem bulk_registration_contract_witness :
    ([5].all (fun s => mapContains FsmBase.init.m_states s) = false) ∧
    FsmBase.init.addStopStates [5] = (FsmBase.init, false) :=
  ⟨rfl, bulk_registration_contract.1 FsmBase.init [5] rfl⟩

/-- Claim C3, counterexample: on a fresh engine with no registered
states, `addTransition(1, Transition(event 1, next 2))` returns `true`
instead of rejecting the unknown state `1`. -/
theorem addTransition_unknown_state_accepted :
    mapContains FsmBase.init.m_states 1 = false ∧
    (FsmBase.init.addTransition 1 ⟨1, 2, false⟩).2 = true :=
  ⟨rfl, rfl⟩

/-- Claim C3, amended: `addTransition` performs no membership check on
`state`: the call succeeds exactly when the packed `(state, event)` key
is not yet in the transition table (so duplicates are rejected), and the
alphabet always ends up containing the transition's event. -/
theorem addTransition_contract (eng : FsmBase) (state : Nat) (t : Transition) :
    (eng.addTransition state t).2 = !(mapContains eng.m_stt (sttKey state t.m_event)) ∧
    setContains (eng.addTransition state t).1.m_alphabet t.m_event = true := by
  constructor
  · show (mapEmplace (eng.updateAlphabet t).m_stt (sttKey state t.m_event) t).2 = _
    rw [mapEmplace_snd, updateAlphabet_stt]
  · exact updateAlphabet_contains eng t

/-- Claim C4, evaluated at the failing input: copying `c4Src` (alphabet
`{7}`, one state `3`) onto a fresh engine duplicates the state map but
leaves the destination's alphabet empty; the swap path likewise leaves
each engine's alphabet in place while the other fields (here the status)
move. -/
theorem copy_swap_drop_alphabet :
    c4Src.m_alphabet = [7] ∧
    mapContains (FsmBase.copy FsmBase.init c4Src).m_states 3 = true ∧
    (FsmBase.copy FsmBase.init c4Src).m_alphabet = [] ∧
    (fsmSwap c4Src FsmBase.init).1.m_alphabet = [7] ∧
    (fsmSwap c4Src FsmBase.init).2.m_alphabet = [] ∧
    mapContains (fsmSwap c4Src FsmBase.init).2.m_states 3 = true :=
  ⟨rfl, rfl, rfl, rfl, rfl, rfl⟩

/-- Claim C5, counterexample: after a handler failure the engine latches
status `Error`; `halt()` then returns through its not-running guard and
the status stays `Error`, not `Stopped`. -/
theorem halt_does_not_stop_error_engine :
    (faultQueued.step).map (fun o => o.eng.m_status) = some FsmStatus.Error ∧
    (faultQueued.step).map (fun o => (o.eng.halt).m_status) = some FsmStatus.Error :=
  ⟨rfl, rfl⟩

/-- Claim C5, amended: `halt()` sets status `Stopped` exactly when the
engine is `Running`; in every other status (including `Error` after a
handler failure) the status is left unchanged.  It never waits: it is a
plain status update either way. -/
theorem halt_stops_only_running (eng : FsmBase) :
    (eng.halt).m_status =
      if eng.m_status = FsmStatus.Running then FsmStatus.Stopped else eng.m_status := by
  unfold FsmBase.halt
  by_cases h : eng.m_status = FsmStatus.Running <;> simp [h]

/-- Claim C6, counterexample: a `Stopped` engine with an empty queue gets
`StateUnchanged` from `step()`, not the latched status; and a `Stopped`
engine with a queued record (raised while running, then halted) has that
record popped by `step()` even though the engine is not `Running`. -/
theorem step_not_running_observed :
    FsmBase.init.m_status = FsmStatus.Stopped ∧
    FsmBase.init.step.map StepOutcome.status = some FsmStatus.StateUnchanged ∧
    (c6Queued.halt).m_status = FsmStatus.Stopped ∧
    (c6Queued.halt).m_events = [(1, 0)] ∧
    (c6Queued.halt).step.map (fun o => (o.status, o.eng.m_events)) =
      some (FsmStatus.Stopped, []) :=
  ⟨rfl, rfl, rfl, rfl, rfl⟩

/-- Claim C6, amended: `step()` checks the queue before the status.  On a
non-`Running` engine an empty queue yields `StateUnchanged` (not the
latched status); a non-empty queue has its front record popped
unconditionally, after which the latched status is returned, no handler
runs and the in-flight flag is cleared. -/
theorem step_not_running_contract (eng : FsmBase)
    (h : eng.m_status ≠ FsmStatus.Running) :
    (eng.m_events = [] →
      eng.step = some ⟨FsmStatus.StateUnchanged, eng, [], false⟩) ∧
    (∀ ev ar rest, eng.m_events = (ev, ar) :: rest →
      eng.step = some ⟨eng.m_status,
        { eng with m_events := rest, m_in_transition := false }, [], false⟩) := by
  constructor
  · intro he
    unfold FsmBase.step
    rw [he]
  · intro ev ar rest he
    unfold FsmBase.step
    rw [he]
    simp only [FsmBase.transitionExec]
    have hb : (FsmBase.m_status { eng with m_events := rest } !=
        FsmStatus.Running) = true := by
      simp only [bne_iff_ne, ne_eq]
      exact h
    rw [hb]
    rfl

/-- Claim C6, witness: the empty-queue branch of the theorem on a fresh
(`Stopped`) engine. -/
theorem step_not_running_contract_witness :
    FsmBase.init.step = some ⟨FsmStatus.StateUnchanged, FsmBase.init, [], false⟩ :=
  (step_not_running_contract FsmBase.init (by decide)).1 rfl

theorem transitionExec_fault (eng : FsmBase) (ev ar : Nat) (o : StepOutcome)
    (hns : eng.m_status ≠ FsmStatus.Fault)
    (h : eng.transitionExec ev ar = some o) (hf : o.status = FsmStatus.Fault) :
    ∃ eid, eng.m_error_state = some eid ∧
      o.eng.m_current = eid ∧
      o.eng.m_status = FsmStatus.Error ∧
      o.signalled = true ∧
      (eid, ar) ∈ o.invoked := by
  unfold FsmBase.transitionExec at h
  split at h
  · cases h
    exact absurd hf hns
  · split at h
    · cases h
    · split at h
      · cases h
      · cases h
      · dsimp only at h
        split at h
        · cases h
        · split at h
          · cases h
            exact FsmStatus.noConfusion hf
          · split at h
            · cases h
            · next eng2 inv heq =>
              unfold FsmBase.toErrorState at heq
              split at heq
              · cases heq
              · next eid herr =>
                split at heq
                · cases heq
                · split at heq
                  · cases heq
                  · cases heq
                    cases h
                    refine ⟨eid, herr, rfl, rfl, rfl, ?_⟩
                    simp

/-- Claim C7: whenever `step()` returns `Fault`, the stepped engine's
`current` equals the error state's id, its status is `Error`, the error
state's handler was invoked with the arguments of the popped record (the
copy saved before the failing invocation — arguments are immutable in
the model, so the copy carries exactly the popped values) and the stop
signal was pulsed.  The hypothesis that the latched status is not
`Fault` holds of every reachable engine: no assignment in the source
ever stores `Fault` into `m_status`. -/
theorem step_fault_postconditions (eng : FsmBase) (out : StepOutcome)
    (hns : eng.m_status ≠ FsmStatus.Fault)
    (hstep : eng.step = some out) (hfault : out.status = FsmStatus.Fault) :
    ∃ eid ev ar rest,
      eng.m_error_state = some eid ∧
      eng.m_events = (ev, ar) :: rest ∧
      out.eng.m_current = eid ∧
      out.eng.m_status = FsmStatus.Error ∧
      out.signalled = true ∧
      (eid, ar) ∈ out.invoked := by
  unfold FsmBase.step at hstep
  split at hstep
  · cases hstep
    exact FsmStatus.noConfusion hfault
  · next ev ar rest he =>
    dsimp only at hstep
    split at hstep
    · cases hstep
    · next o ho =>
      cases hstep
      obtain ⟨eid, h1, h2, h3, h4, h5⟩ :=
        transitionExec_fault { eng with m_events := rest } ev ar o hns ho hfault
      exact ⟨eid, ev, ar, rest, h1, he, h2, h3, h4, h5⟩

/-- Claim C7, witness: the theorem applied to the concrete
handler-failure run, whose `step` returns `Fault` after routing to error
state `3`. -/
theorem step_fault_postconditions_witness :
    faultQueued.step = some faultOut ∧
    (∃ eid ev ar rest,
      faultQueued.m_error_state = some eid ∧
      faultQueued.m_events = (ev, ar) :: rest ∧
      faultOut.eng.m_current = eid ∧
      faultOut.eng.m_status = FsmStatus.Error ∧
      faultOut.signalled = true ∧
      (eid, ar) ∈ faultOut.invoked) :=
  ⟨rfl, step_fault_postconditions faultQueued faultOut (by decide) rfl rfl⟩

theorem raise_success_events (eng : FsmBase) (ev ar : Nat) (eng2 : FsmBase)
    (h : eng.raise ev ar = some (eng2, true)) :
    eng2.m_events = eng.m_events ++ [(ev, ar)] := by
  unfold FsmBase.raise at h
  split at h
  · cases h
  · simp at h
  · simp only [Option.some.injEq, Prod.mk.injEq] at h
    rw [← h.1]
    rfl

theorem transitionEnqueue_success_events (eng : FsmBase) (ev ar : Nat) (eng2 : FsmBase)
    (h : eng.transitionEnqueue ev ar = some (eng2, true)) :
    eng2.m_events = (ev, ar) :: eng.m_events := by
  unfold FsmBase.transitionEnqueue at h
  split at h
  · cases h
  · split at h
    · simp at h
    · simp only [Option.some.injEq, Prod.mk.injEq] at h
      rw [← h.1]
      rfl

theorem transitionExec_preserves_events (eng : FsmBase) (ev ar : Nat) (o : StepOutcome)
    (h : eng.transitionExec ev ar = some o) : o.eng.m_events = eng.m_events := by
  unfold FsmBase.transitionExec at h
  split at h
  · cases h
    rfl
  · split at h
    · cases h
    · split at h
      · cases h
      · cases h
      · dsimp only at h
        split at h
        · cases h
        · split at h
          · cases h
            rfl
          · split at h
            · cases h
            · next eng2 inv heq =>
              unfold FsmBase.toErrorState at heq
              split at heq
              · cases heq
              · split at heq
                · cases heq
                · split at heq
                  · cases heq
                  · cases heq
                    cases h
                    rfl

theorem step_events_tail (eng : FsmBase) (out : StepOutcome)
    (h : eng.step = some out) : out.eng.m_events = eng.m_events.tail := by
  unfold FsmBase.step at h
  split at h
  · next he =>
    cases h
    rw [he]
    rfl
  · next ev ar rest he =>
    dsimp only at h
    split at h
    · cases h
    · next o ho =>
      cases h
      have h2 := transitionExec_preserves_events _ ev ar o ho
      rw [he]
      exact h2

/-- Claim C8: queue discipline.  `raise` enqueues its record at the back
of the event queue and two successful raises preserve their relative
order (FIFO among raises); the handler-facing `transition` enqueues at
the front; and `step` always consumes exactly the head of the queue — so
a transition record is consumed before every raise record that was
already waiting when it was enqueued. -/
theorem queue_discipline :
    (∀ (eng : FsmBase) (ev ar : Nat) (eng2 : FsmBase),
        eng.raise ev ar = some (eng2, true) →
        eng2.m_events = eng.m_events ++ [(ev, ar)]) ∧
    (∀ (eng : FsmBase) (ev ar : Nat) (eng2 : FsmBase),
        eng.transitionEnqueue ev ar = some (eng2, true) →
        eng2.m_events = (ev, ar) :: eng.m_events) ∧
    (∀ (eng eng1 eng2 : FsmBase) (e1 a1 e2 a2 : Nat),
        eng.raise e1 a1 = some (eng1, true) →
        eng1.raise e2 a2 = some (eng2, true) →
        eng2.m_events = eng.m_events ++ [(e1, a1), (e2, a2)]) ∧
    (∀ (eng : FsmBase) (out : StepOutcome),
        eng.step = some out → out.eng.m_events = eng.m_events.tail) := by
  refine ⟨raise_success_events, transitionEnqueue_success_events, ?_, step_events_tail⟩
  intro eng eng1 eng2 e1 a1 e2 a2 h1 h2
  rw [raise_success_events _ _ _ _ h2, raise_success_events _ _ _ _ h1]
  simp

/-- Claim C8, witness: the back-insertion branch of the theorem applied
to the running two-state engine and the accepted event `1`. -/
theorem queue_discipline_witness :
    c6Run.raise 1 0 = some (c6Queued, true) ∧
    c6Queued.m_events = c6Run.m_events ++ [(1, 0)] :=
  ⟨rfl, queue_discipline.1 c6Run 1 0 c6Queued rfl⟩

theorem lor_eq_zero (m n : Nat) : m ||| n = 0 ↔ m = 0 ∧ n = 0 := by
  constructor
  · intro h
    refine ⟨Nat.eq_of_testBit_eq fun i => ?_, Nat.eq_of_testBit_eq fun i => ?_⟩ <;>
      · have h2 := congrArg (fun x => Nat.testBit x i) h
        simp [Nat.testBit_lor] at h2
        simp [h2]
  · rintro ⟨rfl, rfl⟩
    rfl

theorem shl_eq_zero (a k : Nat) : a <<< k = 0 ↔ a = 0 := by
  rw [Nat.shiftLeft_eq, Nat.mul_eq_zero]
  simp

/-- Claim C9, counterexample: when every byte drawn from the random
source is zero, the generated state id is the reserved sentinel `0` —
the generator does not redraw. -/
theorem generateFsmStateId_zero_possible :
    generateFsmStateId (fun _ => 0) = 0 := rfl

/-- Claim C9, amended: the generated id is zero exactly when all four
drawn bytes are zero (mod `2 ^ 8`); any non-zero drawn byte makes the id
non-zero, but the all-zero outcome of the random source yields the
sentinel `0`. -/
theorem generateFsmStateId_eq_zero_iff (random : Nat → Nat) :
    generateFsmStateId random = 0 ↔
      ∀ num < 4, random num % 2 ^ BITS_PER_BYTE = 0 := by
  have hexp : generateFsmStateId random =
      (((0 ||| (random 0 % 2 ^ BITS_PER_BYTE) <<< 0) |||
          (random 1 % 2 ^ BITS_PER_BYTE) <<< 8) |||
        (random 2 % 2 ^ BITS_PER_BYTE) <<< 16) |||
      (random 3 % 2 ^ BITS_PER_BYTE) <<< 24 := rfl
  rw [hexp, lor_eq_zero, lor_eq_zero, lor_eq_zero, lor_eq_zero,
      shl_eq_zero, shl_eq_zero, shl_eq_zero, shl_eq_zero]
  constructor
  · rintro ⟨⟨⟨⟨-, h0⟩, h1⟩, h2⟩, h3⟩
    intro num hnum
    interval_cases num <;> assumption
  · intro h
    exact ⟨⟨⟨⟨rfl, h 0 (by omega)⟩, h 1 (by omega)⟩, h 2 (by omega)⟩, h 3 (by omega)⟩

/-- Claim C9, witness: by the theorem, a source whose draws are all `1`
produces a non-zero id. -/
theorem generateFsmStateId_eq_zero_iff_witness :
    generateFsmStateId (fun _ => 1) ≠ 0 := fun h => by
  have h0 := (generateFsmStateId_eq_zero_iff (fun _ => 1)).mp h 0 (by omega)
  norm_num [BITS_PER_BYTE] at h0

theorem mapFind_mem {α : Type} (m : List (Nat × α)) (k : Nat) (v : α)
    (h : mapFind m k = some v) : (k, v) ∈ m := by
  unfold mapFind at h
  cases hf : m.find? (fun p => p.1 == k) with
  | none =>
    rw [hf] at h
    cases h
  | some pair =>
    rw [hf] at h
    simp only [Option.map_some', Option.some.injEq] at h
    have hm := List.mem_of_find?_eq_some hf
    have hp := List.find?_some hf
    simp only [beq_iff_eq] at hp
    have hpair : pair = (k, v) := by
      cases pair
      simp_all
    rw [← hpair]
    exact hm

theorem mapContains_isSome {α : Type} (m : List (Nat × α)) (k : Nat)
    (h : mapContains m k = true) : (mapFind m k).isSome = true := by
  unfold mapContains at h
  unfold mapFind
  rw [List.any_eq_true] at h
  obtain ⟨x, hx, hpx⟩ := h
  have hs : (m.find? (fun p => p.1 == k)).isSome = true := by
    rw [List.find?_isSome]
    exact ⟨x, hx, hpx⟩
  cases hf : m.find? (fun p => p.1 == k) with
  | none =>
    rw [hf] at hs
    cases hs
  | some pair => simp

theorem lookupAux_next_registered
    (stt : List (Nat × Transition)) (states : List (Nat × FsmState))
    (hclosed : ∀ k t2, (k, t2) ∈ stt → mapContains states t2.m_next = true) :
    ∀ (fuel : Nat) (st : FsmState) (ev : Nat) (t : Transition),
      lookupAux stt states fuel st ev = some (some t) →
      (mapFind states t.m_next).isSome = true := by
  intro fuel
  induction fuel with
  | zero =>
    intro st ev t h
    cases h
  | succ n ih =>
    intro st ev t h
    unfold lookupAux at h
    split at h
    · next t0 hf =>
      cases h
      exact mapContains_isSome _ _ (hclosed _ _ (mapFind_mem _ _ _ hf))
    · split at h
      · split at h
        · next p hp =>
          exact ih p ev t h
        · cases h
      · exact Option.noConfusion (Option.some.inj h)

/-- Claim C10: under `Running`, `step` resolves a transition and indexes
the state map with its destination id without a membership check; the
dereference of the result is safe exactly under the precondition that
every registered transition's destination is a registered state.
Conjuncts: (1) under that precondition, every transition the hierarchical
lookup can resolve has a registered destination, so the `operator[]`
access never yields a default-constructed null pointer; (2)
`addTransition` accepts a transition to the unregistered state `99` —
it never establishes or checks the precondition; (3) the engine built
that way, started and raised through the public API, crashes in `step`
(the modelled `none`) on the null dereference. -/
theorem step_dereference_safety :
    (∀ (stt : List (Nat × Transition)) (states : List (Nat × FsmState))
        (fuel : Nat) (st : FsmState) (ev : Nat) (t : Transition),
        (∀ k t2, (k, t2) ∈ stt → mapContains states t2.m_next = true) →
        lookupAux stt states fuel st ev = some (some t) →
        (mapFind states t.m_next).isSome = true) ∧
    ((FsmBase.init.addTransition 1 ⟨1, 99, false⟩).2 = true ∧
      mapContains (FsmBase.init.addTransition 1 ⟨1, 99, false⟩).1.m_states 99 = false) ∧
    (derefCrashBase.start false = some derefCrashRun ∧
      derefCrashRun.raise 1 0 = some (derefCrashEng, true) ∧
      derefCrashEng.step = none) :=
  ⟨fun stt states fuel st ev t hc h =>
      lookupAux_next_registered stt states hc fuel st ev t h,
    ⟨rfl, rfl⟩, rfl, rfl, rfl⟩

/-- Claim C10, witness: the safety conjunct applied to the running
two-state engine, whose single transition targets the registered
state `2`. -/
theorem step_dereference_safety_witness :
    (mapFind c6Run.m_states ((⟨1, 2, false⟩ : Transition).m_next)).isSome = true := by
  refine step_dereference_safety.1 c6Run.m_stt c6Run.m_states 1 stG 1 ⟨1, 2, false⟩ ?_ rfl
  intro k t2 hmem
  have hstt : c6Run.m_stt = [(sttKey 1 1, ⟨1, 2, false⟩)] := rfl
  rw [hstt] at hmem
  simp only [List.mem_singleton, Prod.mk.injEq] at hmem
  rw [hmem.2]
  rfl
